import Mathlib

/-!
Verification of the core write path of the rucene inverted-index engine.

Embedded source files:
- src/core/index/thread_doc_writer.rs — `DocumentsWriterPerThread` (DWPT):
  doc-id reservation, single-document and block updates, failure marking.
- src/core/index/mod.rs — `SegmentInfo` (`set_max_doc`, `strip_segment_name`)
  and `SegmentCommitInfo` (generation counters).
- src/core/codec/lucene50/compound.rs — the Lucene50 compound-file
  writer/reader.

Modelling conventions:
- Machine integers become `Nat`/`Int` (the values involved stay far from the
  32/64-bit bounds in every modelled scenario; `num_docs_in_ram : u32` is a
  `Nat`, the `i32`/`i64` counters are `Int`).
- Fallible Rust functions returning `Result` become functions returning the
  updated state together with an `Option ErrKind`, or `Except ErrKind`.
- Shared atomics (`pending_num_docs`) are ordinary state fields: all claims
  concern a single thread's view, and within one DWPT operations are serial.
- The external, out-of-scope collaborators (the indexing chain's
  `process_document`, the CRC64 implementation) are parameters: a document is
  represented by the Boolean outcome of processing it, the checksum by an
  arbitrary function on byte lists.
-/

/-- Error kinds surfaced by the modelled core (the `error` crate used by the
source, an error-chain enumeration). `msg` is the generic message kind that a
plain formatted string converts into (`format!(...).into()`), as opposed to
the named kinds constructed explicitly as `ErrorKind::IllegalState(..)` etc.
`processFailed` stands for an arbitrary non-aborting error propagated out of
the external indexing chain's `process_document`. -/
inductive ErrKind where
  | illegalArgument
  | illegalState
  | corruptIndex
  | unsupportedOperation
  | ioError
  | msg
  | processFailed
  deriving DecidableEq

deriving instance DecidableEq for Except

/-- Decidable success test for `Except` results. -/
def isOkE {E A : Type} : Except E A → Bool
  | Except.ok _ => true
  | Except.error _ => false

/-- The DWPT state fields the claims are about, from `DocumentsWriterPerThread`
(thread_doc_writer.rs): the in-RAM document count, the process-wide
`pending_num_docs` counter (an `AtomicI64` shared with the index writer,
modelled as this thread's serial view of it), the buffered deleted doc-ids of
`pending_updates` (`BufferedUpdates.deleted_doc_ids`), the `aborted` flag and
the `max_doc` field of the DWPT's in-progress `SegmentInfo`. The delete-queue
slice and the byte-accounting fields are not modelled: no claim mentions them
and none of the embedded operations lets them influence the modelled fields. -/
structure DwptState where
  numDocsInRam : Nat
  pendingNumDocs : Int
  deletedDocIds : List Int
  aborted : Bool
  maxDoc : Int
  deriving DecidableEq

/-- `DocumentsWriterPerThread::new`: fresh DWPT with zero in-RAM docs, not
aborted, and a `SegmentInfo` built with `max_doc = -1`; `pending0` is the
current value of the shared `pending_num_docs` counter. -/
def dwpt_new (pending0 : Int) : DwptState :=
  { numDocsInRam := 0
    pendingNumDocs := pending0
    deletedDocIds := []
    aborted := false
    maxDoc := -1 }

/-- `DocumentsWriterPerThread::reserve_one_doc`: `fetch_add(1)` on
`pending_num_docs`, then if the counter exceeds `INDEX_MAX_DOCS` (here the
parameter `maxDocs`, a config-level constant not present in the repository
slice) put the one doc back with `fetch_sub(1)` and fail with
`IllegalArgument`. -/
def reserve_one_doc (maxDocs : Int) (s : DwptState) : DwptState × Option ErrKind :=
  let s1 := { s with pendingNumDocs := s.pendingNumDocs + 1 }
  if maxDocs < s1.pendingNumDocs then
    ({ s1 with pendingNumDocs := s1.pendingNumDocs - 1 }, some ErrKind.illegalArgument)
  else
    (s1, none)

/-- `DocumentsWriterPerThread::delete_doc_id`: buffer a doc-id for deletion in
`pending_updates`. Modelled from the spec: `BufferedUpdates::add_doc_id` is
not in the repository slice; per the spec's data model the buffered updates
keep a deleted-doc-id buffer, modelled as appending to a list. -/
def delete_doc_id (docId : Int) (s : DwptState) : DwptState :=
  { s with deletedDocIds := s.deletedDocIds ++ [docId] }

/-- `DocumentsWriterPerThread::finish_document`: applies/resets the delete
slice on `pending_updates` (which does not touch the modelled fields) and
increments the DWPT-private document count. -/
def finish_document (s : DwptState) : DwptState :=
  { s with numDocsInRam := s.numDocsInRam + 1 }

/-- `DocumentsWriterPerThread::update_document`. `docOk` is the outcome of the
external indexing chain's `process_document` on the document. On a processing
error the reserved doc-id (`doc_state.doc_id = num_docs_in_ram`) is buffered
as deleted, `num_docs_in_ram` is incremented, and the error propagates
(`res?` returns before `finish_document` is reached). -/
def update_document (maxDocs : Int) (docOk : Bool) (s : DwptState) :
    DwptState × Option ErrKind :=
  let r := reserve_one_doc maxDocs s
  match r.2 with
  | some e => (r.1, some e)
  | none =>
    let s1 := r.1
    let docId : Int := (s1.numDocsInRam : Int)
    if docOk then
      (finish_document s1, none)
    else
      let s2 := delete_doc_id docId s1
      ({ s2 with numDocsInRam := s2.numDocsInRam + 1 }, some ErrKind.processFailed)

/-- The document loop of `DocumentsWriterPerThread::do_update_documents`: for
each document, reserve a doc-id slot, count it in `doc_count`, process it, and
increment `num_docs_in_ram` whether processing succeeded or failed (the error
branch increments because `finish_document` will not run, then propagates the
error). Returns the state, the value of `doc_count` (an `i32` in the source)
and the error, if any. The post-loop delete-slice bookkeeping of
`do_update_documents` runs only on full success and does not touch the
modelled fields, so it is omitted. -/
def docs_loop (maxDocs : Int) (docsOk : List Bool) (s : DwptState) :
    DwptState × Int × Option ErrKind :=
  match docsOk with
  | [] => (s, 0, none)
  | ok :: rest =>
    let r := reserve_one_doc maxDocs s
    match r.2 with
    | some e => (r.1, 0, some e)
    | none =>
      let s2 := { r.1 with numDocsInRam := r.1.numDocsInRam + 1 }
      if ok then
        let rec2 := docs_loop maxDocs rest s2
        (rec2.1, rec2.2.1 + 1, rec2.2.2)
      else
        (s2, 1, some ErrKind.processFailed)

/-- Iteration core of the block-failure marking loop: run `n` steps of
`delete_doc_id(doc_id); doc_id -= 1`. -/
def delete_block_aux : Nat → DwptState → Int → DwptState
  | 0, s, _ => s
  | n + 1, s, docId => delete_block_aux n (delete_doc_id docId s) (docId - 1)

/-- The block-failure marking loop of `update_documents`:
`while doc_id > end_doc_id { delete_doc_id(doc_id); doc_id -= 1 }`. Since
`doc_id` decreases by one per iteration, the loop runs exactly
`(doc_id - end_doc_id).toNat` times, which is how it is phrased here (a
structurally recursive formulation of the same while loop). -/
def delete_block_loop (s : DwptState) (docId endDocId : Int) : DwptState :=
  delete_block_aux (docId - endDocId).toNat s docId

/-- `DocumentsWriterPerThread::update_documents`: run the document loop; if
the block did not fully index and the DWPT is not aborted, mark every doc-id
of the indexed portion of the block as deleted, walking from
`num_docs_in_ram - 1` down to `num_docs_in_ram - doc_count` (exclusive end
`num_docs_in_ram - 1 - doc_count`). -/
def update_documents (maxDocs : Int) (docsOk : List Bool) (s : DwptState) :
    DwptState × Option ErrKind :=
  let r := docs_loop maxDocs docsOk s
  let s1 := r.1
  let docCount := r.2.1
  let err := r.2.2
  let s2 :=
    if err ≠ none ∧ s1.aborted = false then
      delete_block_loop s1 ((s1.numDocsInRam : Int) - 1)
        ((s1.numDocsInRam : Int) - 1 - docCount)
    else s1
  (s2, err)

/-- The `max_doc` assignment at the start of `DocumentsWriterPerThread::flush`:
`self.segment_info.max_doc = self.num_docs_in_ram as i32` (a direct field
write, not a call of `set_max_doc`). -/
def flush_set_max_doc (s : DwptState) : DwptState :=
  { s with maxDoc := (s.numDocsInRam : Int) }

/-- One indexing operation on a DWPT, for quantifying over the core write
path: a single-document update or a block update, each parametrised by the
external processing outcomes. -/
inductive DwptOp where
  | updateDoc (ok : Bool)
  | updateDocs (oks : List Bool)

/-- Apply one `DwptOp`, keeping the state whether or not the operation
reported an error. -/
def apply_op (maxDocs : Int) (s : DwptState) : DwptOp → DwptState
  | DwptOp.updateDoc ok => (update_document maxDocs ok s).1
  | DwptOp.updateDocs oks => (update_documents maxDocs oks s).1

/-- Run a sequence of indexing operations on a DWPT. -/
def run_ops (maxDocs : Int) (ops : List DwptOp) (s : DwptState) : DwptState :=
  ops.foldl (apply_op maxDocs) s

/-- Segment-name stripping boundary: `index_of_segment_name` (mod.rs). The
first character is skipped (a `.del`-style name has an underscore right after
it), then the position after the first `'_'`, or else after the first `'.'`,
is returned (positions are into the tail, so `+ 1` lands on the delimiter
itself in the full name). File names are modelled as `List Char`. -/
def index_of_segment_name (filename : List Char) : Option Nat :=
  let tail := filename.drop 1
  match tail.findIdx? (fun c => c = '_') with
  | some i => some (i + 1)
  | none => (tail.findIdx? (fun c => c = '.')).map (fun i => i + 1)

/-- `strip_segment_name` (mod.rs): drop everything before the segment-name
boundary, or return the name unchanged if there is no boundary. -/
def strip_segment_name (name : List Char) : List Char :=
  match index_of_segment_name name with
  | some idx => name.drop idx
  | none => name

/-- The `SegmentInfo` fields the claims are about (mod.rs): segment name,
`max_doc` (an `i32`, `-1` meaning "not yet set"), the 16-byte segment id
(modelled as a byte list), and the owned file set in its iteration order. -/
structure SegmentInfoM where
  name : List Char
  maxDoc : Int
  id : List Nat
  files : List (List Char)
  deriving DecidableEq

/-- `SegmentInfo::set_max_doc` (mod.rs): fails with `IllegalState` if
`max_doc` was already set (is not `-1`), otherwise stores the value. -/
def set_max_doc (si : SegmentInfoM) (m : Int) : SegmentInfoM × Option ErrKind :=
  if si.maxDoc ≠ -1 then
    (si, some ErrKind.illegalState)
  else
    ({ si with maxDoc := m }, none)

/-- The `SegmentCommitInfo` fields the claims are about (mod.rs): the wrapped
info, the deletion count, the three generation counters with their
`next_write_*` companions, the cached `size_in_bytes` and the in-memory
`buffered_deletes_gen` (the `dv_updates_files`/`field_infos_files` maps play
no role in any claim). -/
structure SegmentCommitInfoM where
  info : SegmentInfoM
  delCount : Int
  delGen : Int
  nextWriteDelGen : Int
  fieldInfosGen : Int
  nextWriteFieldInfosGen : Int
  docValuesGen : Int
  nextWriteDocValuesGen : Int
  sizeInBytes : Int
  bufferedDeletesGen : Int
  deriving DecidableEq

/-- `SegmentCommitInfo::new` (mod.rs): each `next_write_*_gen` starts at `1`
when its generation argument is `-1` and at the argument plus one otherwise;
the cached `size_in_bytes` starts at `-1` and `buffered_deletes_gen` at `0`. -/
def segment_commit_info_new (info : SegmentInfoM)
    (delCount delGen fieldInfosGen docValuesGen : Int) : SegmentCommitInfoM :=
  { info := info
    delCount := delCount
    delGen := delGen
    nextWriteDelGen := if delGen = -1 then 1 else delGen + 1
    fieldInfosGen := fieldInfosGen
    nextWriteFieldInfosGen := if fieldInfosGen = -1 then 1 else fieldInfosGen + 1
    docValuesGen := docValuesGen
    nextWriteDocValuesGen := if docValuesGen = -1 then 1 else docValuesGen + 1
    sizeInBytes := -1
    bufferedDeletesGen := 0 }

/-- `SegmentCommitInfo::advance_del_gen` (mod.rs): store the pending
`next_write_del_gen` into `del_gen`, then set `next_write_del_gen` to the
(new) `del_gen + 1`, and invalidate the cached `size_in_bytes` to `-1`. -/
def advance_del_gen (c : SegmentCommitInfoM) : SegmentCommitInfoM :=
  let c1 := { c with delGen := c.nextWriteDelGen }
  let c2 := { c1 with nextWriteDelGen := c1.delGen + 1 }
  { c2 with sizeInBytes := -1 }

/-- `SegmentCommitInfo::advance_field_infos_gen` (mod.rs): the same pattern
for the field-infos generation (`next_field_infos_gen()` reads the
`next_write_field_infos_gen` atomic). -/
def advance_field_infos_gen (c : SegmentCommitInfoM) : SegmentCommitInfoM :=
  let c1 := { c with fieldInfosGen := c.nextWriteFieldInfosGen }
  let c2 := { c1 with nextWriteFieldInfosGen := c1.fieldInfosGen + 1 }
  { c2 with sizeInBytes := -1 }

/-- Big-endian 4-byte encoding of an `i32` value (as its unsigned 32-bit
representative), the layout of `DataOutput::write_int`. -/
def encInt32 (n : Nat) : List Nat :=
  [n / 2 ^ 24 % 256, n / 2 ^ 16 % 256, n / 2 ^ 8 % 256, n % 256]

/-- Big-endian 8-byte encoding of an `i64` value (as its unsigned 64-bit
representative), the layout of `DataOutput::write_long`. -/
def encInt64 (n : Nat) : List Nat :=
  [n / 2 ^ 56 % 256, n / 2 ^ 48 % 256, n / 2 ^ 40 % 256, n / 2 ^ 32 % 256,
   n / 2 ^ 24 % 256, n / 2 ^ 16 % 256, n / 2 ^ 8 % 256, n % 256]

/-- Iteration core of the varint encoder; the first argument is a
structural-recursion bound (the value shrinks by a factor of 128 per step, so
a bound equal to the value itself is never exhausted before the value drops
below 128). -/
def vintBytesAux : Nat → Nat → List Nat
  | 0, n => [n % 128]
  | fuel + 1, n =>
    if n < 128 then [n]
    else (n % 128 + 128) :: vintBytesAux fuel (n / 128)

/-- Variable-length 7-bit encoding of a non-negative integer
(`DataOutput::write_vint`): low 7 bits first, continuation bit on every byte
but the last. -/
def vintBytes (n : Nat) : List Nat :=
  vintBytesAux n n

/-- String payload layout (`DataOutput::write_string`): varint length followed
by the content bytes. -/
def writeStringBytes (s : List Nat) : List Nat :=
  vintBytes s.length ++ s

/-- Modelled from the spec: the codec-util framing constants of §4.7
(`codec_util` is not in the repository slice). `CODEC_MAGIC` is the standard
Lucene header magic and `FOOTER_MAGIC` its bitwise complement, both as
unsigned 32-bit values. -/
def CODEC_MAGIC : Nat := 0x3fd76c17

/-- Modelled from the spec: the footer magic (complement of `CODEC_MAGIC`). -/
def FOOTER_MAGIC : Nat := 0xc02893e8

/-- `VERSION_CURRENT` of the Lucene50 compound format (compound.rs). -/
def VERSION_CURRENT : Nat := 0

/-- The byte content of the codec name `"Lucene50CompoundData"`
(`DATA_CODEC` in compound.rs). -/
def DATA_CODEC_B : List Nat :=
  ((r"Lucene50CompoundData").toList).map Char.toNat

/-- Modelled from the spec: `codec_util::write_index_header` (§4.7): magic
`i32`, codec name string, version `i32`, 16-byte segment id, suffix string. -/
def indexHeaderBytes (codec : List Nat) (version : Nat) (id : List Nat)
    (suffix : List Nat) : List Nat :=
  encInt32 CODEC_MAGIC ++ writeStringBytes codec ++ encInt32 version ++ id
    ++ writeStringBytes suffix

/-- Modelled from the spec: `codec_util::index_header_length(codec, suffix)`
— the length of an index header with the given codec name and suffix (it
does not depend on the version value or the id content, the id being fixed at
16 bytes). -/
def index_header_length (codec suffix : List Nat) : Nat :=
  (indexHeaderBytes codec 0 (List.replicate 16 0) suffix).length

/-- Modelled from the spec: the framed footer layout of §4.7 —
`FOOTER_MAGIC` `i32`, algorithm id `0` `i32`, checksum `i64`. -/
def footerBytes (checksum : Nat) : List Nat :=
  encInt32 FOOTER_MAGIC ++ encInt32 0 ++ encInt64 checksum

/-- Modelled from the spec: `codec_util::footer_length()` = 16 bytes. -/
def footer_length : Nat := 16

/-- A codec-framed source file about to be packed into the compound
container, in parsed form: its index-header fields, its payload, and the
checksum stored in its 16-byte footer. Its on-disk bytes are `fileBytes`. -/
structure SourceFile where
  codec : List Nat
  version : Nat
  id : List Nat
  suffix : List Nat
  body : List Nat
  checksum : Nat
  deriving DecidableEq

/-- The on-disk bytes of a framed source file: index header, payload,
footer carrying the stored checksum. -/
def fileBytes (f : SourceFile) : List Nat :=
  indexHeaderBytes f.codec f.version f.id f.suffix ++ f.body
    ++ footerBytes f.checksum

/-- The bytes covered by a framed file's CRC64: everything before the
trailing 8-byte checksum (spec §4.7). -/
def crcInput (f : SourceFile) : List Nat :=
  indexHeaderBytes f.codec f.version f.id f.suffix ++ f.body
    ++ encInt32 FOOTER_MAGIC ++ encInt32 0

/-- The per-file body of the writer loop in `Lucene50CompoundFormat::write`
(compound.rs): `verify_and_copy_index_header` copies the source file's header
after checking its id against the segment id (else `CorruptIndex`); the next
`input.len() - footer_length() - file_pointer()` bytes — exactly the payload
— are copied; `check_footer` validates the source footer (modelled via the
checksum parameter `crc`) and yields the stored checksum; finally the
synthetic footer `FOOTER_MAGIC (i32)`, `0 (i32)`, and that checksum (i64) is
written — deliberately not the compound output's running checksum. -/
def write_file_bytes (siId : List Nat) (crc : List Nat → Nat) (f : SourceFile) :
    Except ErrKind (List Nat) :=
  if f.id ≠ siId then Except.error ErrKind.corruptIndex
  else if f.checksum ≠ crc (crcInput f) then Except.error ErrKind.corruptIndex
  else Except.ok (indexHeaderBytes f.codec f.version f.id f.suffix ++ f.body
    ++ (encInt32 FOOTER_MAGIC ++ encInt32 0 ++ encInt64 f.checksum))

/-- One record of the `.cfe` entries table: stripped sub-file name, start
offset of its byte range in the `.cfs` data file, and the range's length
(`FileEntry` plus its key in compound.rs). -/
structure CfeRecord where
  name : List Char
  offset : Nat
  entryLength : Nat
  deriving DecidableEq

/-- The file loop of `Lucene50CompoundFormat::write`: for each source file of
the segment (in `SegmentInfo` iteration order), record `data.file_pointer()`
as the start offset, append the copied-and-refooted bytes to the data output,
and append the entries record `(strip_segment_name(file), start, length)`.
`lookup` is the directory's `open_checksum_input`. -/
def compound_write_loop (siId : List Nat) (crc : List Nat → Nat)
    (lookup : List Char → Option SourceFile) (files : List (List Char))
    (data : List Nat) (records : List CfeRecord) :
    Except ErrKind (List Nat × List CfeRecord) :=
  match files with
  | [] => Except.ok (data, records)
  | name :: rest =>
    match lookup name with
    | none => Except.error ErrKind.ioError
    | some f =>
      match write_file_bytes siId crc f with
      | Except.error e => Except.error e
      | Except.ok bytes =>
        compound_write_loop siId crc lookup rest (data ++ bytes)
          (records ++ [⟨strip_segment_name name, data.length, bytes.length⟩])

/-- Modelled from the spec: `codec_util::write_footer` (§4.7) — footer magic,
algorithm id `0`, then the output's running checksum over all preceding
bytes. -/
def write_footer_bytes (crc : List Nat → Nat) (pre : List Nat) : List Nat :=
  encInt32 FOOTER_MAGIC ++ encInt32 0
    ++ encInt64 (crc (pre ++ encInt32 FOOTER_MAGIC ++ encInt32 0))

/-- `Lucene50CompoundFormat::write` (compound.rs), producing the `.cfs` data
bytes and the `.cfe` records: write the compound data header
(`DATA_CODEC`, `VERSION_CURRENT`, segment id, empty suffix), run the file
loop, then write the compound's own footer. The serialisation of the records
into `.cfe` bytes (entry codec header, vint count, records, footer) keeps the
records' content unchanged and no claim depends on its byte layout, so the
records are returned as parsed. -/
def compound_write (si : SegmentInfoM) (crc : List Nat → Nat)
    (lookup : List Char → Option SourceFile) :
    Except ErrKind (List Nat × List CfeRecord) :=
  match compound_write_loop si.id crc lookup si.files
      (indexHeaderBytes DATA_CODEC_B VERSION_CURRENT si.id []) [] with
  | Except.error e => Except.error e
  | Except.ok (data, records) =>
    Except.ok (data ++ write_footer_bytes crc data, records)

/-- The duplicate-entry check of `Lucene50CompoundReader::read_entries`
(compound.rs): inserting each parsed record into the map fails as soon as a
stripped name repeats, with `Err(format!("Duplicate cfs entry id={} in
CFS", id).into())` — a plain formatted string converted into an error, i.e.
the generic message kind, not an explicitly constructed `ErrorKind` variant.
The byte-level parsing of the `.cfe` stream and its header/footer checks
(external `codec_util`) are abstracted: the function takes the parsed
records. -/
def read_entries (records : List CfeRecord) : Except ErrKind (List CfeRecord) :=
  if (records.map CfeRecord.name).Nodup then Except.ok records
  else Except.error ErrKind.msg

/-- The expected `.cfs` data length computed by `Lucene50CompoundReader::new`
(compound.rs): `index_header_length(DATA_CODEC, "")` plus the sum of all
entry lengths plus `footer_length()`. -/
def reader_expected_length (entries : List CfeRecord) : Nat :=
  index_header_length DATA_CODEC_B [] + (entries.map CfeRecord.entryLength).sum
    + footer_length

/-- `Lucene50CompoundReader::new` (compound.rs): read the entries (failing on
duplicates), compute the expected data length, and fail with
`Err(format!("length should be {} bytes, but is {} instead").into())` — again
the generic message kind — when the actual `.cfs` length differs. The
`check_index_header`/`retrieve_checksum` calls on the data input are external
`codec_util` checks on fields no claim mentions and are abstracted as
passing. -/
def reader_new (records : List CfeRecord) (dataLen : Nat) :
    Except ErrKind (List CfeRecord) :=
  match read_entries records with
  | Except.error e => Except.error e
  | Except.ok entries =>
    if dataLen ≠ reader_expected_length entries then Except.error ErrKind.msg
    else Except.ok entries

/-- The mutating-operation surface of `impl Directory for
Lucene50CompoundReader` (compound.rs). -/
inductive DirOp where
  | createOutput
  | rename
  | deleteFile
  | obtainLock
  | sync
  | createTempOutput
  | syncMetaData
  deriving DecidableEq

/-- What calling a `Directory` method can do on the compound reader: return
success, return an error of some kind, or panic (Rust `unimplemented!()`,
which unwinds instead of returning a `Result`). -/
inductive DirOutcome where
  | ok
  | err (k : ErrKind)
  | panics
  deriving DecidableEq

/-- The behaviour of each `Directory` method of `Lucene50CompoundReader`
(compound.rs, lines 213–244): `obtain_lock` and `sync` return
`ErrorKind::UnsupportedOperation`; `sync_meta_data` returns `Ok(())`;
`create_temp_output`, `delete_file`, `create_output` and `rename` are
`unimplemented!()`, which panics. -/
def compound_reader_dir_op : DirOp → DirOutcome
  | DirOp.obtainLock => DirOutcome.err ErrKind.unsupportedOperation
  | DirOp.sync => DirOutcome.err ErrKind.unsupportedOperation
  | DirOp.syncMetaData => DirOutcome.ok
  | DirOp.createTempOutput => DirOutcome.panics
  | DirOp.deleteFile => DirOutcome.panics
  | DirOp.createOutput => DirOutcome.panics
  | DirOp.rename => DirOutcome.panics

/-- Descending run of `n` integers starting at `d`:
`[d, d - 1, …, d - n + 1]` — the doc-ids visited by `delete_block_loop`. -/
def descRange (d : Int) : Nat → List Int
  | 0 => []
  | n + 1 => d :: descRange (d - 1) n

/-- A concrete 16-byte segment id for witness instances. -/
def wId : List Nat := List.replicate 16 0

/-- A concrete sub-file name `"_0.a"` for witness instances; its stripped
form is `".a"`. -/
def wName : List Char := ['_', '0', '.', 'a']

/-- A concrete framed source file for witness instances; its checksum `0`
agrees with the trivial checksum function `wCrc`. -/
def wFile : SourceFile :=
  { codec := [99], version := 0, id := wId, suffix := [], body := [7, 8, 9],
    checksum := 0 }

/-- A concrete segment descriptor for witness instances. -/
def wSi : SegmentInfoM :=
  { name := ['_', '0'], maxDoc := 3, id := wId, files := [wName] }

/-- The trivial checksum function used in witness instances. -/
def wCrc : List Nat → Nat := fun _ => 0

/-- The witness directory: it holds exactly the file `wName`. -/
def wLookup : List Char → Option SourceFile :=
  fun n => if n = wName then some wFile else none

/-- The compound data header of the witness container. -/
def wHdr : List Nat := indexHeaderBytes DATA_CODEC_B VERSION_CURRENT wId []

/-- The byte range the writer emits for `wFile`. -/
def wBytes : List Nat := fileBytes wFile

/-- The full `.cfs` bytes of the witness container. -/
def wData : List Nat := (wHdr ++ wBytes) ++ write_footer_bytes wCrc (wHdr ++ wBytes)

/-- The `.cfe` records of the witness container. -/
def wRecs : List CfeRecord :=
  [⟨strip_segment_name wName, wHdr.length, wBytes.length⟩]

theorem delete_block_aux_spec :
    ∀ (n : Nat) (s : DwptState) (d : Int),
      delete_block_aux n s d =
        { s with deletedDocIds := s.deletedDocIds ++ descRange d n } := by
  intro n
  induction n with
  | zero => intro s d; cases s; simp [delete_block_aux, descRange]
  | succ n ih =>
    intro s d
    rw [delete_block_aux, ih]
    cases s
    simp [delete_doc_id, descRange]

theorem delete_block_loop_spec (s : DwptState) (d : Int) (dc : Nat) :
    delete_block_loop s d (d - (dc : Int)) =
      { s with deletedDocIds := s.deletedDocIds ++ descRange d dc } := by
  rw [delete_block_loop]
  have htn : (d - (d - (dc : Int))).toNat = dc := by omega
  rw [htn, delete_block_aux_spec]

theorem descRange_mem :
    ∀ (n : Nat) (d : Int) (i : Nat), i < n → (d - (i : Int)) ∈ descRange d n := by
  intro n
  induction n with
  | zero => intro d i h; omega
  | succ n ih =>
    intro d i h
    cases i with
    | zero => simp [descRange]
    | succ i =>
      have hcast : d - ((i + 1 : Nat) : Int) = (d - 1) - (i : Int) := by push_cast; ring
      rw [descRange, hcast]
      exact List.mem_cons_of_mem _ (ih (d - 1) i (by omega))

theorem docs_loop_fail (maxDocs : Int) :
    ∀ (oks : List Bool) (rest : List Bool) (s : DwptState),
      (∀ b ∈ oks, b = true) →
      s.pendingNumDocs + ((oks.length : Int) + 1) ≤ maxDocs →
      docs_loop maxDocs (oks ++ false :: rest) s =
        ({ s with numDocsInRam := s.numDocsInRam + (oks.length + 1),
                  pendingNumDocs := s.pendingNumDocs + ((oks.length : Int) + 1) },
         ((oks.length : Int) + 1), some ErrKind.processFailed) := by
  intro oks
  induction oks with
  | nil =>
    intro rest s _ hcap
    rcases s with ⟨num, pending, deleted, ab, md⟩
    simp only at hcap
    simp [docs_loop, reserve_one_doc, show ¬(maxDocs < pending + 1) from by omega]
  | cons b oks ih =>
    intro rest s hoks hcap
    have hb : b = true := hoks b (by simp)
    subst hb
    rcases s with ⟨num, pending, deleted, ab, md⟩
    simp only [List.length_cons] at hcap
    push_cast at hcap
    have hres : ¬(maxDocs < pending + 1) := by omega
    simp only [List.cons_append, docs_loop, reserve_one_doc, if_neg hres, List.append_eq,
      ite_true]
    rw [ih rest ⟨num + 1, pending + 1, deleted, ab, md⟩
      (fun b hbm => hoks b (by simp [hbm]))
      (show pending + 1 + ((oks.length : Int) + 1) ≤ maxDocs from by omega)]
    simp only [List.length_cons, Prod.mk.injEq, DwptState.mk.injEq]
    exact ⟨⟨by omega, by push_cast; ring, trivial, trivial, trivial⟩, by push_cast; ring,
      trivial⟩

theorem update_documents_fail (maxDocs : Int) (oks rest : List Bool) (s : DwptState)
    (hoks : ∀ b ∈ oks, b = true) (hab : s.aborted = false)
    (hcap : s.pendingNumDocs + ((oks.length : Int) + 1) ≤ maxDocs) :
    update_documents maxDocs (oks ++ false :: rest) s =
      (⟨s.numDocsInRam + (oks.length + 1),
        s.pendingNumDocs + ((oks.length : Int) + 1),
        s.deletedDocIds ++
          descRange (((s.numDocsInRam + (oks.length + 1) : Nat) : Int) - 1) (oks.length + 1),
        false, s.maxDoc⟩,
       some ErrKind.processFailed) := by
  have hl := docs_loop_fail maxDocs oks rest s hoks hcap
  rcases s with ⟨num, pending, deleted, ab, md⟩
  simp only at hab
  subst hab
  simp only at hl hcap ⊢
  simp only [update_documents, hl]
  rw [if_pos (by constructor <;> simp)]
  have harg : ((((num + (oks.length + 1) : Nat) : Int)) - 1 - ((oks.length : Int) + 1))
      = ((((num + (oks.length + 1) : Nat) : Int) - 1) - ((oks.length + 1 : Nat) : Int)) := by
    push_cast
    ring
  rw [harg, delete_block_loop_spec]

/-- C1: on an initialised, non-aborted DWPT, if processing the k-th document
of an `update_documents` batch fails with a non-aborting error (`oks` are the
k−1 successfully processed documents, then one failing document, then the
never-reached remainder `rest`), the call returns that error,
`num_docs_in_ram` (and the shared `pending_num_docs` reservation count)
advance by exactly k, the doc-ids of all k processed documents of the batch —
including the failing one — are in the buffered deleted-doc-id set, no later
document is indexed, and the DWPT stays non-aborted. -/
theorem c1_update_documents_midbatch_failure (maxDocs : Int) (oks rest : List Bool)
    (s : DwptState)
    (hoks : ∀ b ∈ oks, b = true) (hab : s.aborted = false)
    (hcap : s.pendingNumDocs + ((oks.length : Int) + 1) ≤ maxDocs) :
    (update_documents maxDocs (oks ++ false :: rest) s).2 = some ErrKind.processFailed ∧
    (update_documents maxDocs (oks ++ false :: rest) s).1.numDocsInRam
        = s.numDocsInRam + (oks.length + 1) ∧
    (update_documents maxDocs (oks ++ false :: rest) s).1.pendingNumDocs
        = s.pendingNumDocs + ((oks.length : Int) + 1) ∧
    (∀ i, i < oks.length + 1 →
        ((s.numDocsInRam + i : Nat) : Int)
          ∈ (update_documents maxDocs (oks ++ false :: rest) s).1.deletedDocIds) ∧
    (update_documents maxDocs (oks ++ false :: rest) s).1.aborted = false := by
  rw [update_documents_fail maxDocs oks rest s hoks hab hcap]
  refine ⟨rfl, rfl, rfl, ?_, rfl⟩
  intro i hi
  simp only
  refine List.mem_append_right _ ?_
  have hj : oks.length + 1 - 1 - i < oks.length + 1 := by omega
  have hmem := descRange_mem (oks.length + 1)
    (((s.numDocsInRam + (oks.length + 1) : Nat) : Int) - 1) (oks.length + 1 - 1 - i) hj
  have hcast : (((s.numDocsInRam + (oks.length + 1) : Nat) : Int) - 1)
      - ((oks.length + 1 - 1 - i : Nat) : Int) = ((s.numDocsInRam + i : Nat) : Int) := by
    push_cast
    omega
  rwa [hcast] at hmem

/-- C1 witness: the spec's concrete scenario `update_documents([d1, d2_bad, d3])`
on a fresh DWPT — the error is returned, `num_docs_in_ram = 2`, and the
doc-ids 0 and 1 are both in the deleted-doc-id buffer. -/
theorem c1_update_documents_midbatch_failure_witness :
    (update_documents 10 ([true] ++ false :: [false]) (dwpt_new 0)).2
        = some ErrKind.processFailed ∧
    (update_documents 10 ([true] ++ false :: [false]) (dwpt_new 0)).1.numDocsInRam = 0 + 2 ∧
    ((0 + 0 : Nat) : Int)
        ∈ (update_documents 10 ([true] ++ false :: [false]) (dwpt_new 0)).1.deletedDocIds ∧
    ((0 + 1 : Nat) : Int)
        ∈ (update_documents 10 ([true] ++ false :: [false]) (dwpt_new 0)).1.deletedDocIds := by
  have h := c1_update_documents_midbatch_failure 10 [true] [false] (dwpt_new 0)
    (by decide) (by decide) (by decide)
  exact ⟨h.1, h.2.1, h.2.2.2.1 0 (by decide), h.2.2.2.1 1 (by decide)⟩

/-- C2: when the indexing chain's `process_document` fails inside
`update_document`, the reserved doc-id (`num_docs_in_ram` before the call) is
appended to the buffered deleted-doc-ids, `num_docs_in_ram` is incremented by
exactly one, the shared `pending_num_docs` counter keeps its reservation (is
not decremented), the `aborted` flag and `max_doc` are untouched, and the
error is returned to the caller. -/
theorem c2_update_document_failure_marks_deleted (maxDocs : Int) (s : DwptState)
    (h : s.pendingNumDocs + 1 ≤ maxDocs) :
    update_document maxDocs false s =
      ({ s with numDocsInRam := s.numDocsInRam + 1,
                pendingNumDocs := s.pendingNumDocs + 1,
                deletedDocIds := s.deletedDocIds ++ [(s.numDocsInRam : Int)] },
       some ErrKind.processFailed) := by
  rcases s with ⟨num, pending, deleted, ab, md⟩
  simp only at h
  simp [update_document, reserve_one_doc, delete_doc_id, finish_document,
    show ¬(maxDocs < pending + 1) from by omega]

/-- C2 witness: a failing document on a fresh DWPT — doc-id 0 buffered as
deleted, one doc in RAM, the reservation kept. -/
theorem c2_update_document_failure_marks_deleted_witness :
    update_document 5 false (dwpt_new 0) =
      ({ dwpt_new 0 with numDocsInRam := (dwpt_new 0).numDocsInRam + 1,
                         pendingNumDocs := (dwpt_new 0).pendingNumDocs + 1,
                         deletedDocIds := (dwpt_new 0).deletedDocIds
                           ++ [((dwpt_new 0).numDocsInRam : Int)] },
       some ErrKind.processFailed) :=
  c2_update_document_failure_marks_deleted 5 (dwpt_new 0) (by decide)

/-- C3: when incrementing `pending_num_docs` would exceed `INDEX_MAX_DOCS`,
`reserve_one_doc` rolls the reservation back and fails with `IllegalArgument`;
through `update_document` (and through a first-document reservation in
`update_documents`) the same error is returned with the whole state — the
counter, `num_docs_in_ram` and the deleted-doc-id buffer — unchanged. -/
theorem c3_reserve_overflow_rollback (maxDocs : Int) (s : DwptState) (docOk : Bool)
    (rest : List Bool) (h : maxDocs < s.pendingNumDocs + 1) :
    reserve_one_doc maxDocs s = (s, some ErrKind.illegalArgument) ∧
    update_document maxDocs docOk s = (s, some ErrKind.illegalArgument) ∧
    update_documents maxDocs (docOk :: rest) s = (s, some ErrKind.illegalArgument) := by
  rcases s with ⟨num, pending, deleted, ab, md⟩
  simp only at h
  have h1 : reserve_one_doc maxDocs ⟨num, pending, deleted, ab, md⟩ =
      (⟨num, pending, deleted, ab, md⟩, some ErrKind.illegalArgument) := by
    simp [reserve_one_doc, show maxDocs < pending + 1 from h]
  refine ⟨h1, ?_, ?_⟩
  · simp [update_document, h1]
  · simp [update_documents, docs_loop, h1, delete_block_loop]
    intro hab
    have htn : ((num : Int) - 1 - ((num : Int) - 1 - 0)).toNat = 0 := by omega
    simp [htn, delete_block_aux]

/-- C3 witness: the spec's concrete scenario — `INDEX_MAX_DOCS = 2`, counter
at 2: `update_document` fails with `IllegalArgument` and the counter stays
at 2. -/
theorem c3_reserve_overflow_rollback_witness :
    reserve_one_doc 2 (dwpt_new 2) = (dwpt_new 2, some ErrKind.illegalArgument) ∧
    update_document 2 true (dwpt_new 2) = (dwpt_new 2, some ErrKind.illegalArgument) := by
  have h := c3_reserve_overflow_rollback 2 (dwpt_new 2) true [] (by decide)
  exact ⟨h.1, h.2.1⟩

theorem reserve_one_doc_maxDoc (m : Int) (s : DwptState) :
    (reserve_one_doc m s).1.maxDoc = s.maxDoc := by
  simp only [reserve_one_doc]
  split <;> rfl

theorem update_document_maxDoc (m : Int) (ok : Bool) (s : DwptState) :
    (update_document m ok s).1.maxDoc = s.maxDoc := by
  simp only [update_document]
  rcases hr : reserve_one_doc m s with ⟨s', e⟩
  have hm : s'.maxDoc = s.maxDoc := by rw [← reserve_one_doc_maxDoc m s, hr]
  cases e with
  | some e => simpa [hr] using hm
  | none => cases ok <;> simp [hr, finish_document, delete_doc_id, hm]

theorem docs_loop_maxDoc (m : Int) :
    ∀ (docsOk : List Bool) (s : DwptState), (docs_loop m docsOk s).1.maxDoc = s.maxDoc := by
  intro docsOk
  induction docsOk with
  | nil => intro s; rfl
  | cons ok rest ih =>
    intro s
    simp only [docs_loop]
    rcases hr : reserve_one_doc m s with ⟨s', e⟩
    have hm : s'.maxDoc = s.maxDoc := by rw [← reserve_one_doc_maxDoc m s, hr]
    cases e with
    | some e => simpa [hr] using hm
    | none =>
      cases ok
      · simpa [hr] using hm
      · simp only [hr, ite_true]
        rw [ih]
        exact hm

theorem update_documents_maxDoc (m : Int) (docsOk : List Bool) (s : DwptState) :
    (update_documents m docsOk s).1.maxDoc = s.maxDoc := by
  simp only [update_documents]
  split
  · rw [delete_block_loop, delete_block_aux_spec]
    simpa using docs_loop_maxDoc m docsOk s
  · exact docs_loop_maxDoc m docsOk s

theorem run_ops_maxDoc (m : Int) :
    ∀ (ops : List DwptOp) (s : DwptState), (run_ops m ops s).maxDoc = s.maxDoc := by
  intro ops
  induction ops with
  | nil => intro s; rfl
  | cons op rest ih =>
    intro s
    show (run_ops m rest (apply_op m s op)).maxDoc = s.maxDoc
    rw [ih]
    cases op with
    | updateDoc ok => exact update_document_maxDoc m ok s
    | updateDocs oks => exact update_documents_maxDoc m oks s

/-- C7: `SegmentInfo::set_max_doc` on a segment whose `max_doc` is already
set (not −1) fails with `IllegalState` and leaves the info unchanged; and on
the core write path, after any sequence of `update_document`/
`update_documents` operations on a freshly created DWPT the segment's
`max_doc` is still −1, so the direct assignment at the start of
`DocumentsWriterPerThread::flush` takes it from −1 to `num_docs_in_ram`,
a non-negative value. -/
theorem c7_max_doc_set_once (si : SegmentInfoM) (m maxDocs pending0 : Int)
    (ops : List DwptOp) (h : si.maxDoc ≠ -1) :
    set_max_doc si m = (si, some ErrKind.illegalState) ∧
    (run_ops maxDocs ops (dwpt_new pending0)).maxDoc = -1 ∧
    (flush_set_max_doc (run_ops maxDocs ops (dwpt_new pending0))).maxDoc
        = ((run_ops maxDocs ops (dwpt_new pending0)).numDocsInRam : Int) ∧
    0 ≤ (flush_set_max_doc (run_ops maxDocs ops (dwpt_new pending0))).maxDoc := by
  refine ⟨by simp [set_max_doc, h], by rw [run_ops_maxDoc]; rfl, rfl, ?_⟩
  show (0 : Int) ≤ ((run_ops maxDocs ops (dwpt_new pending0)).numDocsInRam : Int)
  positivity

/-- C7 witness: `set_max_doc` on an already-set info (`max_doc = 3`) fails
with `IllegalState`; after one indexing op a fresh DWPT still has
`max_doc = -1`, and the flush assignment yields a non-negative value. -/
theorem c7_max_doc_set_once_witness :
    set_max_doc ⟨['_', '0'], 3, wId, []⟩ 5
        = (⟨['_', '0'], 3, wId, []⟩, some ErrKind.illegalState) ∧
    (run_ops 10 [DwptOp.updateDoc true] (dwpt_new 0)).maxDoc = -1 ∧
    0 ≤ (flush_set_max_doc (run_ops 10 [DwptOp.updateDoc true] (dwpt_new 0))).maxDoc := by
  have h := c7_max_doc_set_once ⟨['_', '0'], 3, wId, []⟩ 5 10 0 [DwptOp.updateDoc true]
    (by decide)
  exact ⟨h.1, h.2.1, h.2.2.2⟩

/-- C8: immediately after `advance_del_gen`, `del_gen` equals the previously
stored `next_write_del_gen`, `next_write_del_gen` equals the new
`del_gen + 1`, and the cached `size_in_bytes` is invalidated to −1; the same
relation holds for `advance_field_infos_gen` with `field_infos_gen`. -/
theorem c8_advance_gen_postconditions (c : SegmentCommitInfoM) :
    (advance_del_gen c).delGen = c.nextWriteDelGen ∧
    (advance_del_gen c).nextWriteDelGen = (advance_del_gen c).delGen + 1 ∧
    (advance_del_gen c).sizeInBytes = -1 ∧
    (advance_field_infos_gen c).fieldInfosGen = c.nextWriteFieldInfosGen ∧
    (advance_field_infos_gen c).nextWriteFieldInfosGen
        = (advance_field_infos_gen c).fieldInfosGen + 1 ∧
    (advance_field_infos_gen c).sizeInBytes = -1 :=
  ⟨rfl, rfl, rfl, rfl, rfl, rfl⟩

/-- C10: `SegmentCommitInfo::new` initialises each `next_write_*_gen` to 1
when the corresponding generation argument is −1, and to the argument plus
one otherwise (so a never-written segment's first write generation is 1 and
generation 0 is skipped), while storing the generation arguments themselves
unchanged. -/
theorem c10_next_write_gen_initialisation (info : SegmentInfoM)
    (delCount delGen fieldInfosGen docValuesGen : Int) :
    (segment_commit_info_new info delCount delGen fieldInfosGen docValuesGen).delGen
        = delGen ∧
    (segment_commit_info_new info delCount delGen fieldInfosGen docValuesGen).nextWriteDelGen
        = (if delGen = -1 then 1 else delGen + 1) ∧
    (segment_commit_info_new info delCount delGen fieldInfosGen
        docValuesGen).nextWriteFieldInfosGen
        = (if fieldInfosGen = -1 then 1 else fieldInfosGen + 1) ∧
    (segment_commit_info_new info delCount delGen fieldInfosGen
        docValuesGen).nextWriteDocValuesGen
        = (if docValuesGen = -1 then 1 else docValuesGen + 1) :=
  ⟨rfl, rfl, rfl, rfl⟩

/-- C9 counterexample: `create_output` on the compound reader does not return
an `UnsupportedOperation` error — it panics (`unimplemented!()`), so the
claim that every mutating operation returns such an error fails. -/
theorem c9_mutating_ops_counterexample :
    compound_reader_dir_op DirOp.createOutput = DirOutcome.panics ∧
    DirOutcome.panics ≠ DirOutcome.err ErrKind.unsupportedOperation := by decide

/-- C9 amended: on the read-only compound-reader directory, `obtain_lock` and
`sync` return an error of kind `UnsupportedOperation` and `sync_meta_data`
returns success, but `create_output`, `rename`, `delete_file` and
`create_temp_output` panic via `unimplemented!()` instead of returning an
error. -/
theorem c9_directory_op_behaviour :
    compound_reader_dir_op DirOp.obtainLock = DirOutcome.err ErrKind.unsupportedOperation ∧
    compound_reader_dir_op DirOp.sync = DirOutcome.err ErrKind.unsupportedOperation ∧
    compound_reader_dir_op DirOp.syncMetaData = DirOutcome.ok ∧
    compound_reader_dir_op DirOp.createOutput = DirOutcome.panics ∧
    compound_reader_dir_op DirOp.rename = DirOutcome.panics ∧
    compound_reader_dir_op DirOp.deleteFile = DirOutcome.panics ∧
    compound_reader_dir_op DirOp.createTempOutput = DirOutcome.panics := by decide

/-- C6 counterexample: an entries table with the duplicate stripped name
`".a"` makes `read_entries` fail, but with the generic message error a
formatted string converts into, not with kind `IllegalState`. -/
theorem c6_duplicate_error_kind_counterexample :
    read_entries [⟨['.', 'a'], 0, 1⟩, ⟨['.', 'a'], 2, 3⟩] = Except.error ErrKind.msg ∧
    (Except.error ErrKind.msg : Except ErrKind (List CfeRecord))
        ≠ Except.error ErrKind.illegalState := by decide

/-- C6 amended: for every entries table containing two records with the same
stripped name, `read_entries` — and hence `Lucene50CompoundReader::new` —
fails with the duplicate-entry error, which is a generic message error
(`format!(...).into()`), not one of kind `IllegalState`. -/
theorem c6_duplicate_entry_rejected (records : List CfeRecord) (dataLen : Nat)
    (hdup : ¬ (records.map CfeRecord.name).Nodup) :
    read_entries records = Except.error ErrKind.msg ∧
    reader_new records dataLen = Except.error ErrKind.msg := by
  have h1 : read_entries records = Except.error ErrKind.msg := by
    simp [read_entries, hdup]
  exact ⟨h1, by simp [reader_new, h1]⟩

/-- C6 witness: a concrete duplicate table is rejected by `reader_new`. -/
theorem c6_duplicate_entry_rejected_witness :
    (¬ (([⟨['.', 'a'], 0, 1⟩, ⟨['.', 'a'], 2, 3⟩] : List CfeRecord).map
        CfeRecord.name).Nodup) ∧
    reader_new [⟨['.', 'a'], 0, 1⟩, ⟨['.', 'a'], 2, 3⟩] 42 = Except.error ErrKind.msg := by
  refine ⟨by decide, ?_⟩
  exact (c6_duplicate_entry_rejected [⟨['.', 'a'], 0, 1⟩, ⟨['.', 'a'], 2, 3⟩] 42
    (by decide)).2

theorem encInt32_length (n : Nat) : (encInt32 n).length = 4 := rfl

theorem encInt64_length (n : Nat) : (encInt64 n).length = 8 := rfl

theorem footerBytes_length (c : Nat) : (footerBytes c).length = 16 := rfl

theorem write_footer_bytes_length (crc : List Nat → Nat) (pre : List Nat) :
    (write_footer_bytes crc pre).length = 16 := rfl

theorem indexHeaderBytes_length (codec : List Nat) (ver : Nat) (id : List Nat)
    (suffix : List Nat) (hid : id.length = 16) :
    (indexHeaderBytes codec ver id suffix).length = index_header_length codec suffix := by
  simp [indexHeaderBytes, index_header_length, writeStringBytes, encInt32, hid]
  omega

theorem fileBytes_length_ge (f : SourceFile) : 16 ≤ (fileBytes f).length := by
  simp [fileBytes, footerBytes, encInt32, encInt64]
  omega

theorem write_file_bytes_ok_eq {siId : List Nat} {crc : List Nat → Nat} {f : SourceFile}
    {b : List Nat} (h : write_file_bytes siId crc f = Except.ok b) : b = fileBytes f := by
  simp only [write_file_bytes] at h
  split at h
  · exact absurd h (by simp)
  · split at h
    · exact absurd h (by simp)
    · cases h
      rfl

theorem fileBytes_split (f : SourceFile) :
    fileBytes f = (fileBytes f).take ((fileBytes f).length - 16)
      ++ (encInt32 FOOTER_MAGIC ++ encInt32 0 ++ encInt64 f.checksum) := by
  have h1 : fileBytes f
      = (indexHeaderBytes f.codec f.version f.id f.suffix ++ f.body)
        ++ footerBytes f.checksum := by
    simp [fileBytes, List.append_assoc]
  have hl2 : (fileBytes f).length - 16
      = (indexHeaderBytes f.codec f.version f.id f.suffix ++ f.body).length := by
    rw [h1]
    simp [footerBytes_length]
    omega
  rw [hl2]
  conv_lhs => rw [h1]
  conv_rhs => rw [h1]
  rw [List.take_left]
  rfl

theorem compound_write_loop_spec (siId : List Nat) (crc : List Nat → Nat)
    (lookup : List Char → Option SourceFile) :
    ∀ (files : List (List Char)) (data0 : List Nat) (recs0 : List CfeRecord)
      (dataF : List Nat) (recsF : List CfeRecord),
      compound_write_loop siId crc lookup files data0 recs0 = Except.ok (dataF, recsF) →
      (∃ t, dataF = data0 ++ t) ∧
      (∃ newRecs,
        recsF = recs0 ++ newRecs ∧
        newRecs.length = files.length ∧
        dataF.length = data0.length + (newRecs.map CfeRecord.entryLength).sum ∧
        (∀ (j : Nat) (name : List Char) (f : SourceFile) (r : CfeRecord),
          files.get? j = some name → lookup name = some f → newRecs.get? j = some r →
          r.name = strip_segment_name name ∧
          r.entryLength = (fileBytes f).length ∧
          (dataF.drop r.offset).take r.entryLength = fileBytes f)) := by
  intro files
  induction files with
  | nil =>
    intro data0 recs0 dataF recsF h
    simp only [compound_write_loop] at h
    cases h
    refine ⟨⟨[], by simp⟩, ⟨[], by simp, rfl, by simp, ?_⟩⟩
    intro j name f r hj
    simp at hj
  | cons name0 rest ih =>
    intro data0 recs0 dataF recsF h
    simp only [compound_write_loop] at h
    cases hl : lookup name0 with
    | none =>
      simp only [hl] at h
      exact absurd h (by simp)
    | some f0 =>
      simp only [hl] at h
      cases hw : write_file_bytes siId crc f0 with
      | error e =>
        simp only [hw] at h
        exact absurd h (by simp)
      | ok bytes =>
        simp only [hw] at h
        have hb : bytes = fileBytes f0 := write_file_bytes_ok_eq hw
        obtain ⟨⟨t, ht⟩, ⟨newRecs, hrecs, hlen, hdlen, hprop⟩⟩ :=
          ih (data0 ++ bytes)
            (recs0 ++ [⟨strip_segment_name name0, data0.length, bytes.length⟩])
            dataF recsF h
        refine ⟨⟨bytes ++ t, by rw [ht, List.append_assoc]⟩,
          ⟨⟨strip_segment_name name0, data0.length, bytes.length⟩ :: newRecs, ?_, ?_, ?_, ?_⟩⟩
        · rw [hrecs, List.append_assoc]
          simp
        · simp [hlen]
        · rw [hdlen]
          simp only [List.map_cons, List.sum_cons, List.length_append]
          omega
        · intro j name f r hj hf hr
          cases j with
          | zero =>
            simp only [List.get?_cons_zero, Option.some.injEq] at hj hr
            subst hj
            subst hr
            have hff : f = f0 := by
              rw [hl] at hf
              exact Option.some.inj hf.symm
            subst hff
            refine ⟨rfl, by simp [hb], ?_⟩
            simp only
            rw [ht, List.append_assoc, List.drop_left, List.take_left, hb]
          | succ j =>
            simp only [List.get?_cons_succ] at hj hr
            exact hprop j name f r hj hf hr

/-- C4: for every source file packed by `Lucene50CompoundFormat::write`, the
byte range written for it into the `.cfs` data (located by the stored offset
and length) equals the original file's bytes with the original 16-byte footer
replaced by `FOOTER_MAGIC (i32)`, `0 (i32)` and the checksum read from the
original file's own footer (`i64`) — the checksum value quantified here is
the file's stored one, independent of the compound output's running checksum
function — and the corresponding `.cfe` record stores the file's stripped
name, the start offset of that range, and the range's length. -/
theorem c4_compound_write_range_and_record (si : SegmentInfoM) (crc : List Nat → Nat)
    (lookup : List Char → Option SourceFile) (data : List Nat) (records : List CfeRecord)
    (h : compound_write si crc lookup = Except.ok (data, records)) :
    records.length = si.files.length ∧
    ∀ (j : Nat) (name : List Char) (f : SourceFile) (r : CfeRecord),
      si.files.get? j = some name → lookup name = some f → records.get? j = some r →
      r.name = strip_segment_name name ∧
      r.entryLength = (fileBytes f).length ∧
      (data.drop r.offset).take r.entryLength
        = (fileBytes f).take ((fileBytes f).length - 16)
          ++ (encInt32 FOOTER_MAGIC ++ encInt32 0 ++ encInt64 f.checksum) := by
  simp only [compound_write] at h
  cases hl : compound_write_loop si.id crc lookup si.files
      (indexHeaderBytes DATA_CODEC_B VERSION_CURRENT si.id []) [] with
  | error e => simp only [hl] at h; exact absurd h (by simp)
  | ok p =>
    rcases p with ⟨d1, r1⟩
    simp only [hl] at h
    have hpair := (Prod.mk.injEq _ _ _ _).mp (Except.ok.inj h)
    have hdata : data = d1 ++ write_footer_bytes crc d1 := hpair.1.symm
    have hrecs1 : records = r1 := hpair.2.symm
    subst hrecs1
    obtain ⟨⟨t, ht⟩, ⟨newRecs, hrecs, hlen, hdlen, hprop⟩⟩ :=
      compound_write_loop_spec si.id crc lookup si.files _ _ _ _ hl
    have hrecs2 : records = newRecs := by simpa using hrecs
    subst hrecs2
    refine ⟨hlen, ?_⟩
    intro j name f r hj hf hr
    obtain ⟨h1, h2, h3⟩ := hprop j name f r hj hf hr
    refine ⟨h1, h2, ?_⟩
    rw [← fileBytes_split f]
    have hlen3 := congrArg List.length h3
    rw [List.length_take] at hlen3
    have hfull : r.entryLength ≤ (d1.drop r.offset).length := by
      rw [← h2] at hlen3
      omega
    rw [hdata, List.drop_append_eq_append_drop, List.take_append_eq_append_take]
    have hzero : r.entryLength - (List.drop r.offset d1).length = 0 := by omega
    rw [h3, hzero]
    simp

/-- C4 witness: the concrete one-file container — the record stores the
stripped name and the header-length offset, and the extracted range equals
the source file's bytes with the footer rebuilt from its own checksum. -/
theorem c4_compound_write_range_and_record_witness :
    wRecs.get? 0 = some ⟨strip_segment_name wName, wHdr.length, wBytes.length⟩ ∧
    (wData.drop wHdr.length).take wBytes.length
      = (fileBytes wFile).take ((fileBytes wFile).length - 16)
        ++ (encInt32 FOOTER_MAGIC ++ encInt32 0 ++ encInt64 wFile.checksum) := by
  have h := c4_compound_write_range_and_record wSi wCrc wLookup wData wRecs (by decide)
  have h2 := h.2 0 wName wFile ⟨strip_segment_name wName, wHdr.length, wBytes.length⟩
    (by decide) (by decide) (by decide)
  exact ⟨by decide, h2.2.2⟩

/-- C5: `Lucene50CompoundReader::new` computes the expected `.cfs` length as
index-header length + Σ entry lengths + footer length and fails whenever the
actual length differs; for any container produced by the writer the equation
`sum(entry.length) + header_len + footer_len = file_length(.cfs)` holds, so
(absent duplicate entry names, which fail earlier) opening it passes the
length check. -/
theorem c5_compound_length_equation (si : SegmentInfoM) (crc : List Nat → Nat)
    (lookup : List Char → Option SourceFile) (data : List Nat) (records : List CfeRecord)
    (hid : si.id.length = 16)
    (h : compound_write si crc lookup = Except.ok (data, records)) :
    data.length = reader_expected_length records ∧
    (∀ (entries : List CfeRecord) (len : Nat),
      len ≠ reader_expected_length entries → isOkE (reader_new entries len) = false) ∧
    ((records.map CfeRecord.name).Nodup →
      reader_new records data.length = Except.ok records) := by
  have hlen : data.length = reader_expected_length records := by
    simp only [compound_write] at h
    cases hl : compound_write_loop si.id crc lookup si.files
        (indexHeaderBytes DATA_CODEC_B VERSION_CURRENT si.id []) [] with
    | error e => simp only [hl] at h; exact absurd h (by simp)
    | ok p =>
      rcases p with ⟨d1, r1⟩
      simp only [hl] at h
      have hpair := (Prod.mk.injEq _ _ _ _).mp (Except.ok.inj h)
      have hdata : data = d1 ++ write_footer_bytes crc d1 := hpair.1.symm
      have hrecs1 : records = r1 := hpair.2.symm
      subst hrecs1
      obtain ⟨⟨t, ht⟩, ⟨newRecs, hrecs, hlen1, hdlen, hprop⟩⟩ :=
        compound_write_loop_spec si.id crc lookup si.files _ _ _ _ hl
      have hrecs2 : records = newRecs := by simpa using hrecs
      subst hrecs2
      have hhdr : (indexHeaderBytes DATA_CODEC_B VERSION_CURRENT si.id []).length
          = index_header_length DATA_CODEC_B [] :=
        indexHeaderBytes_length DATA_CODEC_B VERSION_CURRENT si.id [] hid
      rw [hdata]
      simp only [List.length_append, write_footer_bytes_length, hdlen, hhdr,
        reader_expected_length, footer_length]
  refine ⟨hlen, ?_, ?_⟩
  · intro entries len hne
    by_cases hd : (entries.map CfeRecord.name).Nodup
    · simp [reader_new, read_entries, hd, hne, isOkE]
    · simp [reader_new, read_entries, hd, isOkE]
  · intro hnodup
    simp [reader_new, read_entries, hnodup, hlen]

/-- C5 witness: the concrete one-file container satisfies the length
equation, and opening it passes the reader's checks. -/
theorem c5_compound_length_equation_witness :
    wData.length = reader_expected_length wRecs ∧
    reader_new wRecs wData.length = Except.ok wRecs := by
  have h := c5_compound_length_equation wSi wCrc wLookup wData wRecs (by decide) (by decide)
  exact ⟨h.1, h.2.2 (by decide)⟩
